import Mathlib

/-!
Shallow embedding of the `connect-log` Go repository: a structured-logging
interceptor for Connect RPC servers. The embedding covers:

* `headers.go` — header redaction (`redactHeadersMap`, `shouldRedactHeader`);
* `errors.go` — error classification (`newLoggableError`, `LogValue`);
* `stream.go` — the counting stream wrapper (`loggedStreamConn`);
* `interceptor.go` — the unary and streaming interceptors
  (`WrapUnary`, `WrapStreamingHandler`, `initRequestLogger`).

Go maps of headers are modelled as association lists, Go `error` values as an
inductive `GoError` covering the error shapes the package inspects
(sentinel context errors, `connect.Error` wrappers, `fmt.Errorf`-style
wrappers, plain errors, and errors implementing `slog.LogValuer`), and the
`slog` records the interceptor emits as a list of `LogRecord` values.
Wall-clock durations and payload-size attributes of the real records are not
represented: the claims under verification do not mention them.
-/

namespace ConnectLog

/-! ### ASCII case folding (model of `strings.ToLower` / `strings.EqualFold`) -/

/-- Lower-case a single character, ASCII letters only, mirroring the simple
folding Go applies to header names (which are ASCII in practice). -/
def lowerChar (c : Char) : Char :=
  if 65 ≤ c.toNat ∧ c.toNat ≤ 90 then Char.ofNat (c.toNat + 32) else c

/-- Lower-case a string character-by-character: model of `strings.ToLower`. -/
def lowerStr (s : String) : String :=
  ⟨s.data.map lowerChar⟩

/-- Case-insensitive string equality: model of `strings.EqualFold`. -/
def eqFold (a b : String) : Bool :=
  lowerStr a == lowerStr b

/-- Check whether `pat` occurs as a contiguous sublist of `s`. -/
def hasInfix (pat : List Char) : List Char → Bool
  | [] => pat.isEmpty
  | c :: rest => pat.isPrefixOf (c :: rest) || hasInfix pat rest

/-- Substring containment: model of `strings.Contains`. -/
def containsSub (s pat : String) : Bool :=
  hasInfix pat.data s.data

theorem toNat_ofNat_of_lt {n : Nat} (h : n < 0xd800) : (Char.ofNat n).toNat = n := by
  have hv : n.isValidChar := Or.inl h
  rw [Char.ofNat, dif_pos hv]
  rfl

theorem lowerChar_idem (c : Char) : lowerChar (lowerChar c) = lowerChar c := by
  by_cases h : 65 ≤ c.toNat ∧ c.toNat ≤ 90
  · have ht : (lowerChar c).toNat = c.toNat + 32 := by
      rw [lowerChar, if_pos h]
      exact toNat_ofNat_of_lt (by omega)
    rw [lowerChar, lowerChar, if_pos h, if_neg]
    rw [lowerChar, if_pos h] at ht
    omega
  · have hc : lowerChar c = c := by rw [lowerChar, if_neg h]
    rw [hc, hc]

theorem lowerStr_idem (s : String) : lowerStr (lowerStr s) = lowerStr s := by
  have hmap : (fun c => lowerChar (lowerChar c)) = lowerChar := funext lowerChar_idem
  show (⟨(s.data.map lowerChar).map lowerChar⟩ : String) = ⟨s.data.map lowerChar⟩
  rw [List.map_map]
  show (⟨s.data.map (fun c => lowerChar (lowerChar c))⟩ : String) = _
  rw [hmap]

theorem eqFold_lowerStr_left (a b : String) : eqFold (lowerStr a) b = eqFold a b := by
  rw [eqFold, eqFold, lowerStr_idem]

/-! ### Header redaction (`headers.go`) -/

/-- Model of `shouldRedactHeader`: a header key is redacted when it
case-insensitively equals one of the configured names, or matches the
built-in checks on the lower-cased key. -/
def shouldRedactHeader (key : String) (redactHeaders : List String) : Bool :=
  let keyLower := lowerStr key
  redactHeaders.any (fun h => eqFold keyLower h) ||
    (keyLower == "authorization" ||
      containsSub keyLower "token" ||
      containsSub keyLower "secret" ||
      containsSub keyLower "password")

/-- Model of `redactHeadersMap`: build a fresh header mapping whose sensitive
keys map to the single sentinel value and whose other keys keep their values. -/
def redactHeadersMap (headers : List (String × List String))
    (redactHeaders : List String) : List (String × List String) :=
  headers.map fun kv =>
    if shouldRedactHeader kv.1 redactHeaders then (kv.1, ["[REDACTED]"]) else kv

/-- Written from the specification text, not from the code: a key is sensitive
when it case-insensitively equals a configured name, or equals
`authorization`, or contains `token`, `secret` or `password` as a
case-insensitive substring. -/
def sensitiveKeySpec (key : String) (sensitiveNames : List String) : Bool :=
  sensitiveNames.any (fun s => eqFold key s) ||
    (lowerStr key == "authorization" ||
      containsSub (lowerStr key) "token" ||
      containsSub (lowerStr key) "secret" ||
      containsSub (lowerStr key) "password")

/-- Written from the specification text, not from the code: the expected
output mapping replaces each sensitive key's values by the one-element
sentinel sequence and copies every other entry unchanged. -/
def redactSpecMap (headers : List (String × List String))
    (sensitiveNames : List String) : List (String × List String) :=
  headers.map fun kv =>
    if sensitiveKeySpec kv.1 sensitiveNames then (kv.1, ["[REDACTED]"]) else kv

theorem shouldRedactHeader_eq_spec (key : String) (s : List String) :
    shouldRedactHeader key s = sensitiveKeySpec key s := by
  unfold shouldRedactHeader sensitiveKeySpec
  simp only [eqFold_lowerStr_left]

/-! ### Connect status codes (`connect.Code`) -/

/-- Closed enumeration of Connect status codes, with the numeric values the
`connectrpc.com/connect` package assigns to them. -/
inductive Code where
  | canceled
  | unknown
  | invalidArgument
  | deadlineExceeded
  | notFound
  | alreadyExists
  | permissionDenied
  | resourceExhausted
  | failedPrecondition
  | aborted
  | outOfRange
  | unimplemented
  | internal
  | unavailable
  | dataLoss
  | unauthenticated
deriving DecidableEq, Repr

/-- Numeric value of a Connect code, used by the interceptor's ordinal
comparison `connErr.Code() < connect.CodeInternal`. -/
def Code.toNat : Code → Nat
  | .canceled => 1
  | .unknown => 2
  | .invalidArgument => 3
  | .deadlineExceeded => 4
  | .notFound => 5
  | .alreadyExists => 6
  | .permissionDenied => 7
  | .resourceExhausted => 8
  | .failedPrecondition => 9
  | .aborted => 10
  | .outOfRange => 11
  | .unimplemented => 12
  | .internal => 13
  | .unavailable => 14
  | .dataLoss => 15
  | .unauthenticated => 16

/-- Model of `connect.Code.String()`. -/
def Code.render : Code → String
  | .canceled => "canceled"
  | .unknown => "unknown"
  | .invalidArgument => "invalid_argument"
  | .deadlineExceeded => "deadline_exceeded"
  | .notFound => "not_found"
  | .alreadyExists => "already_exists"
  | .permissionDenied => "permission_denied"
  | .resourceExhausted => "resource_exhausted"
  | .failedPrecondition => "failed_precondition"
  | .aborted => "aborted"
  | .outOfRange => "out_of_range"
  | .unimplemented => "unimplemented"
  | .internal => "internal"
  | .unavailable => "unavailable"
  | .dataLoss => "data_loss"
  | .unauthenticated => "unauthenticated"

/-! ### Go error values and `slog` values -/

/-- Structured log values, as far as the package inspects them: a value is
either a flat attribute group (`slog.KindGroup`, holding named string
members) or some other scalar value. -/
inductive SlogValue where
  | str (s : String)
  | group (attrs : List (String × String))
deriving DecidableEq, Repr

/-- Check for `slog.KindGroup`. -/
def SlogValue.isGroup : SlogValue → Bool
  | .group _ => true
  | .str _ => false

/-- Go `error` values, covering the shapes the package distinguishes:
the context sentinels, `io.EOF`, plain `errors.New` errors, errors that
implement `slog.LogValuer`, `*connect.Error` wrappers (whose cause may be
absent), and `fmt.Errorf("...: %w", err)` wrappers. -/
inductive GoError where
  | contextCanceled
  | contextDeadlineExceeded
  | osDeadlineExceeded
  | ioEOF
  | simple (msg : String)
  | withLogValue (msg : String) (v : SlogValue)
  | connectWrap (code : Code) (cause : Option GoError)
  | wrap (msg : String) (inner : GoError)

/-- Message text of an error: model of the `Error()` method of each shape. -/
def GoError.text : GoError → String
  | .contextCanceled => "context canceled"
  | .contextDeadlineExceeded => "context deadline exceeded"
  | .osDeadlineExceeded => "i/o timeout"
  | .ioEOF => "EOF"
  | .simple msg => msg
  | .withLogValue msg _ => msg
  | .connectWrap code cause =>
      Code.render code ++ ": " ++ (match cause with
        | some c => GoError.text c
        | none => "")
  | .wrap msg _ => msg

/-- Model of `errors.As(err, &connectErr)` for target `*connect.Error`:
walk the unwrap chain and return the code and cause of the first
`connect.Error` found. -/
def asConnect : GoError → Option (Code × Option GoError)
  | .connectWrap code cause => some (code, cause)
  | .wrap _ inner => asConnect inner
  | _ => none

/-- Model of `errors.Is(err, context.Canceled)`: the unwrap chain reaches the
`context.Canceled` sentinel (a `connect.Error` unwraps to its cause). -/
def isCanceledErr : GoError → Bool
  | .contextCanceled => true
  | .connectWrap _ (some cause) => isCanceledErr cause
  | .wrap _ inner => isCanceledErr inner
  | _ => false

/-- Model of
`errors.Is(err, context.DeadlineExceeded) || errors.Is(err, os.ErrDeadlineExceeded)`. -/
def isDeadlineErr : GoError → Bool
  | .contextDeadlineExceeded => true
  | .osDeadlineExceeded => true
  | .connectWrap _ (some cause) => isDeadlineErr cause
  | .wrap _ inner => isDeadlineErr inner
  | _ => false

/-- Model of `errors.Is(err, io.EOF)`. -/
def isEOFErr : GoError → Bool
  | .ioEOF => true
  | .connectWrap _ (some cause) => isEOFErr cause
  | .wrap _ inner => isEOFErr inner
  | _ => false

/-- Model of `errors.As(err, &logValuer)` for target `slog.LogValuer`:
walk the unwrap chain and return the `LogValue()` of the first error that
implements the interface (`*connect.Error` itself does not). -/
def asLogValuer : GoError → Option SlogValue
  | .withLogValue _ v => some v
  | .connectWrap _ (some cause) => asLogValuer cause
  | .wrap _ inner => asLogValuer inner
  | _ => none

/-! ### Error classification (`errors.go`) -/

/-- Model of a `*connect.Error` value: its code and its wrapped cause. -/
structure ConnectError where
  code : Code
  cause : Option GoError

/-- Model of `connect.Error.Message()`: the text of the wrapped cause, or the
empty string when there is none. -/
def ConnectError.message : ConnectError → String
  | ⟨_, some c⟩ => c.text
  | ⟨_, none⟩ => ""

/-- Model of `*loggableError` values. The two predefined package-level
variables `errCanceled` and `errDeadline` are distinguished constructors, so
that propositional equality of this type models Go pointer identity for
them; `fresh e` models a newly allocated `&loggableError{Error: e}`. -/
inductive LoggableError where
  | errCanceled
  | errDeadline
  | fresh (e : ConnectError)

/-- The `connect.Error` carried by a `loggableError`: the singletons carry the
fixed errors built at package initialization. -/
def LoggableError.toConnect : LoggableError → ConnectError
  | .errCanceled => ⟨.canceled, some (.simple "request canceled")⟩
  | .errDeadline => ⟨.deadlineExceeded, some (.simple "request deadline exceeded")⟩
  | .fresh e => e

/-- Code of a `loggableError` (promoted `connect.Error.Code()`). -/
def LoggableError.code (e : LoggableError) : Code :=
  e.toConnect.code

/-- Message of a `loggableError` (promoted `connect.Error.Message()`). -/
def LoggableError.message (e : LoggableError) : String :=
  e.toConnect.message

/-- Classification of a non-nil error: the body of `newLoggableError` after
its nil check. Checks for a reachable `connect.Error` first, then the
context sentinels, and otherwise wraps the error with code unknown. -/
def classifyGoError (err : GoError) : LoggableError :=
  match asConnect err with
  | some (code, cause) => .fresh ⟨code, cause⟩
  | none =>
      if isCanceledErr err then .errCanceled
      else if isDeadlineErr err then .errDeadline
      else .fresh ⟨.unknown, some err⟩

/-- Model of `newLoggableError`: `nil` maps to absent, anything else to its
classification. -/
def newLoggableError : Option GoError → Option LoggableError
  | none => none
  | some err => some (classifyGoError err)

/-- The `slog.LogValuer` exposed by the original underlying error of a
`loggableError`: `origErr := e.Unwrap()` with fallback to the `connect.Error`
itself, which implements no `slog.LogValuer` and whose own unwrap chain is
already exhausted, so the fallback finds nothing. -/
def origLogValuer (e : LoggableError) : Option SlogValue :=
  match e.toConnect.cause with
  | some orig => asLogValuer orig
  | none => none

/-- Model of `loggableError.LogValue` on a non-nil receiver: the code and
message attributes, followed by the attributes extracted from the original
underlying error. A group value is spliced in; any other value is nested
under a `details` key. -/
def logValueAttrs (e : LoggableError) : List (String × SlogValue) :=
  let ce := e.toConnect
  let base := [("code", SlogValue.str ce.code.render),
               ("message", SlogValue.str ce.message)]
  match origLogValuer e with
  | none => base
  | some (.group g) => base ++ g.map fun a => (a.1, SlogValue.str a.2)
  | some v => base ++ [("details", v)]

/-! ### Log records emitted by the interceptor -/

/-- Levels of the `log/slog` package used by the interceptor. -/
inductive Level where
  | debug
  | info
  | warn
  | error
deriving DecidableEq, Repr, BEq

/-- An emitted log record, restricted to the parts the verified claims speak
about: the level, the message string, the classified error attribute when one
is attached, and the `messages` group carrying the sent/received counts of a
stream summary. Duration and payload-size attributes are elided. -/
structure LogRecord where
  level : Level
  msg : String
  err : Option LoggableError := none
  messages : Option (Nat × Nat) := none

/-- Records that are not debug-level chatter: the summary records. -/
def summaries (records : List LogRecord) : List LogRecord :=
  records.filter fun r => r.level != Level.debug

/-! ### Stream wrapper (`stream.go`) -/

/-- Model of `loggedStreamConn`: the per-stream counters and the cached
debug-enablement flag. The embedded underlying connection is modelled by
passing each delegated call's result in explicitly. -/
structure LoggedStreamConn where
  sentCount : Nat
  receivedCount : Nat
  debugEnabled : Bool

/-- Model of `newLoggedStreamConn`: counters start at zero and the debug flag
is computed once from the logger. -/
def newLoggedStreamConn (debugEnabled : Bool) : LoggedStreamConn :=
  ⟨0, 0, debugEnabled⟩

/-- Model of `loggedStreamConn.Send`: delegate first (the delegate's outcome
is the argument `underlying`); on failure return the error unchanged without
touching the counter; on success increment the counter and, when debug
logging is enabled, emit a per-message debug record. Returns the updated
connection, the returned error, and the records emitted. -/
def streamSend (c : LoggedStreamConn) (underlying : Option GoError) :
    LoggedStreamConn × Option GoError × List LogRecord :=
  match underlying with
  | some e => (c, some e, [])
  | none =>
      let c1 : LoggedStreamConn := { c with sentCount := c.sentCount + 1 }
      (c1, none,
        if c1.debugEnabled then [{ level := .debug, msg := "stream message sent" }] else [])

/-- Model of `loggedStreamConn.Receive`, symmetric to `streamSend`. -/
def streamReceive (c : LoggedStreamConn) (underlying : Option GoError) :
    LoggedStreamConn × Option GoError × List LogRecord :=
  match underlying with
  | some e => (c, some e, [])
  | none =>
      let c1 : LoggedStreamConn := { c with receivedCount := c.receivedCount + 1 }
      (c1, none,
        if c1.debugEnabled then [{ level := .debug, msg := "stream message received" }] else [])

/-- One operation the wrapped handler performs on the wrapped connection,
together with the outcome of the underlying delegate for that operation. -/
inductive StreamEvent where
  | send (underlying : Option GoError)
  | receive (underlying : Option GoError)

/-- Dispatch one stream event to the wrapper method it invokes. -/
def streamStep (c : LoggedStreamConn) : StreamEvent → LoggedStreamConn × Option GoError × List LogRecord
  | .send u => streamSend c u
  | .receive u => streamReceive c u

/-- Run a sequence of stream operations through the wrapper, collecting the
final connection state and all per-message records. -/
def runStream (c : LoggedStreamConn) : List StreamEvent → LoggedStreamConn × List LogRecord
  | [] => (c, [])
  | ev :: rest =>
      let step := streamStep c ev
      let next := runStream step.1 rest
      (next.1, step.2.2 ++ next.2)

/-- Number of events that are sends whose underlying delegate succeeded. -/
def successfulSends (evs : List StreamEvent) : Nat :=
  evs.countP fun ev => match ev with
    | .send none => true
    | _ => false

/-- Number of events that are receives whose underlying delegate succeeded. -/
def successfulReceives (evs : List StreamEvent) : Nat :=
  evs.countP fun ev => match ev with
    | .receive none => true
    | _ => false

/-! ### Interceptor (`interceptor.go`) -/

/-- Model of the closure returned by `WrapUnary`, applied to one request:
given the debug-enablement of the request logger, the wrapped handler `next`
and the request, produce the records emitted and the `(response, error)` pair
returned to the caller. Header redaction inside the debug records and the
duration/size attributes are elided from the records. -/
def wrapUnary {Req Resp : Type} (debugEnabled : Bool)
    (next : Req → Resp × Option GoError) (req : Req) :
    List LogRecord × Resp × Option GoError :=
  let pre : List LogRecord :=
    if debugEnabled then [{ level := .debug, msg := "request started" }] else []
  let out := next req
  match out.2 with
  | some e =>
      let connErr := classifyGoError e
      let lvl := if connErr.code.toNat < Code.internal.toNat then Level.warn else Level.error
      (pre ++ [{ level := lvl, msg := "request failed", err := some connErr }], out.1, some e)
  | none =>
      let dbg : List LogRecord :=
        if debugEnabled then [{ level := .debug, msg := "response completed" }] else []
      (pre ++ dbg ++ [{ level := .info, msg := "request completed" }], out.1, none)

/-- Behaviour of a streaming handler, as observed through the wrapped
connection: the sequence of send/receive operations it performs (each with
its underlying outcome) and the terminating error it returns. -/
structure StreamHandler where
  events : List StreamEvent
  result : Option GoError

/-- Model of the closure returned by `WrapStreamingHandler`, applied to one
stream: wrap the connection, run the handler against the wrapper, then emit
the single summary record — `stream failed` with the classified error when
the handler's error is non-nil and does not wrap `io.EOF` (warn below the
internal code, error otherwise), `stream completed` at info level with no
error attribute otherwise; the summary always carries the final counters.
Returns the records emitted and the error returned to the caller. -/
def wrapStreamingHandler (debugEnabled : Bool) (handler : StreamHandler) :
    List LogRecord × Option GoError :=
  let pre : List LogRecord :=
    if debugEnabled then [{ level := .debug, msg := "stream started" }] else []
  let run := runStream (newLoggedStreamConn debugEnabled) handler.events
  let counts : Option (Nat × Nat) := some (run.1.sentCount, run.1.receivedCount)
  let summary : LogRecord :=
    match handler.result with
    | some e =>
        if isEOFErr e then { level := .info, msg := "stream completed", messages := counts }
        else
          let connErr := classifyGoError e
          let lvl := if connErr.code.toNat < Code.internal.toNat then Level.warn else Level.error
          { level := lvl, msg := "stream failed", err := some connErr, messages := counts }
    | none => { level := .info, msg := "stream completed", messages := counts }
  (pre ++ run.2 ++ [summary], handler.result)

/-- Model of `strings.TrimPrefix(spec.Procedure, "/")` at the top of
`initRequestLogger`: remove one leading separator when present. -/
def trimLeadingSlash (procedure : List Char) : List Char :=
  match procedure with
  | '/' :: rest => rest
  | other => other

/-- Model of the remainder of the parse: `strings.Index` and the two slices
around the separator, with the out-of-bounds slice on a missing separator
(the Go panic) modelled as `none`. -/
def initRequestLoggerSplit (procedure : List Char) : Option (List Char × List Char) :=
  let p := trimLeadingSlash procedure
  match p.findIdx? (fun c => c == '/') with
  | none => none
  | some idx => some (p.take idx, p.drop (idx + 1))

end ConnectLog

namespace ConnectLog

/-! ### Theorems for the claims -/

/-- C1: every key of the input mapping that case-insensitively equals a
configured sensitive name, or equals `authorization`, or contains `token`,
`secret` or `password` as a case-insensitive substring, maps to exactly the
one-element sequence `["[REDACTED]"]` in the output of `redactHeadersMap`;
every other key keeps its original value sequence; the built-in names are
covered for every configured list, including one that replaces the defaults.
The first conjunct states the full characterization as an equation against
the mapping written from the spec's words; the function is pure, so the
input mapping is never mutated. -/
theorem redactHeadersMap_correct :
    (∀ (headers : List (String × List String)) (names : List String),
      redactHeadersMap headers names = redactSpecMap headers names) ∧
    (∀ (headers : List (String × List String)) (names : List String) (k : String) (v : List String),
      (k, v) ∈ headers → sensitiveKeySpec k names = true →
      (k, ["[REDACTED]"]) ∈ redactHeadersMap headers names) ∧
    (∀ (headers : List (String × List String)) (names : List String) (k : String) (v : List String),
      (k, v) ∈ headers → sensitiveKeySpec k names = false →
      (k, v) ∈ redactHeadersMap headers names) := by
  refine ⟨?_, ?_, ?_⟩
  · intro headers names
    unfold redactHeadersMap redactSpecMap
    simp only [shouldRedactHeader_eq_spec]
  · intro headers names k v hmem hsens
    have hmap := List.mem_map_of_mem
      (fun kv : String × List String =>
        if shouldRedactHeader kv.1 names then (kv.1, ["[REDACTED]"]) else kv) hmem
    rw [redactHeadersMap]
    simpa [shouldRedactHeader_eq_spec, hsens] using hmap
  · intro headers names k v hmem hsens
    have hmap := List.mem_map_of_mem
      (fun kv : String × List String =>
        if shouldRedactHeader kv.1 names then (kv.1, ["[REDACTED]"]) else kv) hmem
    rw [redactHeadersMap]
    simpa [shouldRedactHeader_eq_spec, hsens] using hmap

/-- C1 witness: with a replaced sensitive-name list, the built-in
`Authorization` key is still redacted and an ordinary key keeps its value. -/
theorem redactHeadersMap_correct_witness :
    ("Authorization", ["[REDACTED]"]) ∈
      redactHeadersMap [("Authorization", ["Bearer abc"]), ("Content-Type", ["text/html"])]
        ["x-api-key"] ∧
    ("Content-Type", ["text/html"]) ∈
      redactHeadersMap [("Authorization", ["Bearer abc"]), ("Content-Type", ["text/html"])]
        ["x-api-key"] :=
  ⟨redactHeadersMap_correct.2.1 _ _ _ ["Bearer abc"] (by simp) (by decide),
   redactHeadersMap_correct.2.2 _ _ _ _ (by simp) (by decide)⟩

/-- C2: classification is total (a Lean function); `nil` maps to absent; an
error with a reachable `connect.Error` keeps exactly that code and message;
any other error not recognized as a context-lifecycle failure is wrapped
with code unknown and its own message text. -/
theorem newLoggableError_cases :
    newLoggableError none = none ∧
    (∀ (e : GoError) (c : Code) (cause : Option GoError),
      asConnect e = some (c, cause) →
      newLoggableError (some e) = some (.fresh ⟨c, cause⟩) ∧
      (classifyGoError e).code = c ∧
      (classifyGoError e).message = ConnectError.message ⟨c, cause⟩) ∧
    (∀ e : GoError,
      asConnect e = none → isCanceledErr e = false → isDeadlineErr e = false →
      newLoggableError (some e) = some (.fresh ⟨.unknown, some e⟩) ∧
      (classifyGoError e).code = .unknown ∧
      (classifyGoError e).message = e.text) := by
  refine ⟨rfl, ?_, ?_⟩
  · intro e c cause h
    have hcl : classifyGoError e = .fresh ⟨c, cause⟩ := by
      simp only [classifyGoError, h]
    exact ⟨by simp only [newLoggableError, hcl],
      by rw [hcl]; rfl, by rw [hcl]; rfl⟩
  · intro e h hc hd
    have hcl : classifyGoError e = .fresh ⟨.unknown, some e⟩ := by
      simp only [classifyGoError, h, hc, hd]
      rfl
    exact ⟨by simp only [newLoggableError, hcl],
      by rw [hcl]; rfl, by rw [hcl]; rfl⟩

/-- C2 witness: a `connect.Error` with code not-found is preserved, and a
plain error is wrapped as unknown with its own text. -/
theorem newLoggableError_cases_witness :
    (newLoggableError (some (.connectWrap .notFound (some (.simple "resource not found")))) =
      some (.fresh ⟨.notFound, some (.simple "resource not found")⟩)) ∧
    (classifyGoError (.simple "something went wrong")).code = .unknown ∧
    (classifyGoError (.simple "something went wrong")).message = "something went wrong" :=
  ⟨(newLoggableError_cases.2.1 (.connectWrap .notFound (some (.simple "resource not found")))
      .notFound (some (.simple "resource not found")) rfl).1,
   (newLoggableError_cases.2.2 (.simple "something went wrong") rfl rfl rfl).2.1,
   (newLoggableError_cases.2.2 (.simple "something went wrong") rfl rfl rfl).2.2⟩

/-- C6: classification of any error recognized as a context cancellation
(and carrying no connect status) returns the one predefined canceled
singleton, and classification of any error recognized as a deadline expiry —
`context.DeadlineExceeded` or `os.ErrDeadlineExceeded` — returns the one
predefined deadline singleton; being a function, classification returns the
same value, hence the same identity, on every call with the same input. -/
theorem classify_singleton_reuse :
    (∀ e : GoError, asConnect e = none → isCanceledErr e = true →
      newLoggableError (some e) = some .errCanceled) ∧
    (∀ e : GoError, asConnect e = none → isCanceledErr e = false → isDeadlineErr e = true →
      newLoggableError (some e) = some .errDeadline) ∧
    (newLoggableError (some .contextCanceled) = some .errCanceled ∧
      LoggableError.errCanceled.code = .canceled ∧
      LoggableError.errCanceled.message = "request canceled") ∧
    (newLoggableError (some .contextDeadlineExceeded) = some .errDeadline ∧
      newLoggableError (some .osDeadlineExceeded) = some .errDeadline ∧
      LoggableError.errDeadline.code = .deadlineExceeded ∧
      LoggableError.errDeadline.message = "request deadline exceeded") := by
  refine ⟨?_, ?_, ⟨rfl, rfl, rfl⟩, ⟨rfl, rfl, rfl, rfl⟩⟩
  · intro e h hc
    simp only [newLoggableError, classifyGoError, h, hc]
    rfl
  · intro e h hc hd
    simp only [newLoggableError, classifyGoError, h, hc, hd]
    rfl

/-- C6 witness: the context-cancellation sentinel classifies to the canceled
singleton and the lower-level deadline primitive classifies to the deadline
singleton. -/
theorem classify_singleton_reuse_witness :
    newLoggableError (some .contextCanceled) = some .errCanceled ∧
    newLoggableError (some .osDeadlineExceeded) = some .errDeadline :=
  ⟨classify_singleton_reuse.1 .contextCanceled rfl rfl,
   classify_singleton_reuse.2.1 .osDeadlineExceeded rfl rfl rfl⟩

/-- C10: when an error both carries a connect status and wraps a context
cancellation or deadline error, the connect status wins: the result keeps
the connect error's code and message and is never one of the two context
singletons. -/
theorem connect_precedence_over_context :
    ∀ (e : GoError) (c : Code) (cause : Option GoError),
      asConnect e = some (c, cause) →
      (isCanceledErr e = true ∨ isDeadlineErr e = true) →
      newLoggableError (some e) = some (.fresh ⟨c, cause⟩) ∧
      (classifyGoError e).code = c ∧
      (classifyGoError e).message = ConnectError.message ⟨c, cause⟩ ∧
      classifyGoError e ≠ .errCanceled ∧
      classifyGoError e ≠ .errDeadline := by
  intro e c cause h _hctx
  have hcl : classifyGoError e = .fresh ⟨c, cause⟩ := by
    simp only [classifyGoError, h]
  refine ⟨by simp only [newLoggableError, hcl],
    by rw [hcl]; rfl, by rw [hcl]; rfl, ?_, ?_⟩
  · rw [hcl]
    intro hh
    exact LoggableError.noConfusion hh
  · rw [hcl]
    intro hh
    exact LoggableError.noConfusion hh

/-- C10 witness: `connect.NewError(CodeAborted, context.Canceled)` keeps code
aborted and message `context canceled`, as the repository's own test
expects. -/
theorem connect_precedence_over_context_witness :
    newLoggableError (some (.connectWrap .aborted (some .contextCanceled))) =
      some (.fresh ⟨.aborted, some .contextCanceled⟩) ∧
    (classifyGoError (.connectWrap .aborted (some .contextCanceled))).code = .aborted ∧
    (classifyGoError (.connectWrap .aborted (some .contextCanceled))).message =
      "context canceled" :=
  ⟨(connect_precedence_over_context (.connectWrap .aborted (some .contextCanceled))
      .aborted (some .contextCanceled) rfl (Or.inl rfl)).1,
   (connect_precedence_over_context (.connectWrap .aborted (some .contextCanceled))
      .aborted (some .contextCanceled) rfl (Or.inl rfl)).2.1,
   (connect_precedence_over_context (.connectWrap .aborted (some .contextCanceled))
      .aborted (some .contextCanceled) rfl (Or.inl rfl)).2.2.1⟩

theorem runStream_sentCount (c : LoggedStreamConn) (evs : List StreamEvent) :
    (runStream c evs).1.sentCount = c.sentCount + successfulSends evs := by
  induction evs generalizing c with
  | nil => simp [runStream, successfulSends]
  | cons ev rest ih =>
    cases ev with
    | send u =>
      cases u with
      | none =>
        simp only [runStream, streamStep, streamSend, ih, successfulSends, List.countP_cons]
        simp
        omega
      | some e =>
        simp only [runStream, streamStep, streamSend, ih, successfulSends, List.countP_cons]
        simp
    | receive u =>
      cases u with
      | none =>
        simp only [runStream, streamStep, streamReceive, ih, successfulSends, List.countP_cons]
        simp
      | some e =>
        simp only [runStream, streamStep, streamReceive, ih, successfulSends, List.countP_cons]
        simp

theorem runStream_receivedCount (c : LoggedStreamConn) (evs : List StreamEvent) :
    (runStream c evs).1.receivedCount = c.receivedCount + successfulReceives evs := by
  induction evs generalizing c with
  | nil => simp [runStream, successfulReceives]
  | cons ev rest ih =>
    cases ev with
    | send u =>
      cases u with
      | none =>
        simp only [runStream, streamStep, streamSend, ih, successfulReceives, List.countP_cons]
        simp
      | some e =>
        simp only [runStream, streamStep, streamSend, ih, successfulReceives, List.countP_cons]
        simp
    | receive u =>
      cases u with
      | none =>
        simp only [runStream, streamStep, streamReceive, ih, successfulReceives, List.countP_cons]
        simp
        omega
      | some e =>
        simp only [runStream, streamStep, streamReceive, ih, successfulReceives, List.countP_cons]
        simp

/-- C3: a successful delegated send or receive increments exactly its own
counter; a failed one leaves the wrapper state unchanged and returns the
delegate's error as is; over any operation sequence on a freshly wrapped
connection, the counters read exactly the number of successful sends and
successful receives. -/
theorem loggedStreamConn_counts :
    (∀ (c : LoggedStreamConn) (e : GoError), streamSend c (some e) = (c, some e, [])) ∧
    (∀ (c : LoggedStreamConn) (e : GoError), streamReceive c (some e) = (c, some e, [])) ∧
    (∀ (c : LoggedStreamConn),
      (streamSend c none).1.sentCount = c.sentCount + 1 ∧
      (streamSend c none).1.receivedCount = c.receivedCount ∧
      (streamReceive c none).1.receivedCount = c.receivedCount + 1 ∧
      (streamReceive c none).1.sentCount = c.sentCount) ∧
    (∀ (d : Bool) (evs : List StreamEvent),
      (runStream (newLoggedStreamConn d) evs).1.sentCount = successfulSends evs ∧
      (runStream (newLoggedStreamConn d) evs).1.receivedCount = successfulReceives evs) := by
  refine ⟨fun c e => rfl, fun c e => rfl, fun c => ⟨rfl, rfl, rfl, rfl⟩, fun d evs => ⟨?_, ?_⟩⟩
  · rw [runStream_sentCount]
    simp [newLoggedStreamConn]
  · rw [runStream_receivedCount]
    simp [newLoggedStreamConn]

theorem summaries_append (a b : List LogRecord) :
    summaries (a ++ b) = summaries a ++ summaries b := by
  unfold summaries
  exact List.filter_append a b

theorem summaries_debug_if (b : Bool) (m : String) :
    summaries (if b then [{ level := Level.debug, msg := m }] else []) = [] := by
  cases b <;> rfl

theorem summaries_runStream (c : LoggedStreamConn) (evs : List StreamEvent) :
    summaries (runStream c evs).2 = [] := by
  induction evs generalizing c with
  | nil => rfl
  | cons ev rest ih =>
    cases ev with
    | send u =>
      cases u with
      | none =>
        show summaries
          ((if ({ c with sentCount := c.sentCount + 1 } : LoggedStreamConn).debugEnabled
            then [{ level := .debug, msg := "stream message sent" }] else [])
            ++ (runStream { c with sentCount := c.sentCount + 1 } rest).2) = []
        rw [summaries_append, ih, summaries_debug_if]
        rfl
      | some e =>
        show summaries ([] ++ (runStream c rest).2) = []
        rw [List.nil_append, ih]
    | receive u =>
      cases u with
      | none =>
        show summaries
          ((if ({ c with receivedCount := c.receivedCount + 1 } : LoggedStreamConn).debugEnabled
            then [{ level := .debug, msg := "stream message received" }] else [])
            ++ (runStream { c with receivedCount := c.receivedCount + 1 } rest).2) = []
        rw [summaries_append, ih, summaries_debug_if]
        rfl
      | some e =>
        show summaries ([] ++ (runStream c rest).2) = []
        rw [List.nil_append, ih]

/-- C5: when a streaming handler terminates with `nil` or an error matching
the end-of-stream sentinel `io.EOF`, exactly one non-debug record is
emitted — an info-level `stream completed` record with no error attribute —
and otherwise exactly one `stream failed` record carrying the classified
error; in every case that single summary carries the successful send and
receive counts. -/
theorem wrapStreamingHandler_summary :
    ∀ (d : Bool) (h : StreamHandler),
      (h.result = none →
        summaries (wrapStreamingHandler d h).1 =
          [{ level := .info, msg := "stream completed", err := none,
             messages := some (successfulSends h.events, successfulReceives h.events) }]) ∧
      (∀ e : GoError, h.result = some e → isEOFErr e = true →
        summaries (wrapStreamingHandler d h).1 =
          [{ level := .info, msg := "stream completed", err := none,
             messages := some (successfulSends h.events, successfulReceives h.events) }]) ∧
      (∀ e : GoError, h.result = some e → isEOFErr e = false →
        summaries (wrapStreamingHandler d h).1 =
          [{ level := if (classifyGoError e).code.toNat < Code.internal.toNat
                then Level.warn else Level.error,
             msg := "stream failed", err := some (classifyGoError e),
             messages := some (successfulSends h.events, successfulReceives h.events) }]) := by
  intro d h
  refine ⟨?_, ?_, ?_⟩
  · intro hres
    simp only [wrapStreamingHandler, hres]
    rw [summaries_append, summaries_append, summaries_debug_if, summaries_runStream]
    simp [summaries, runStream_sentCount, runStream_receivedCount, newLoggedStreamConn] <;> rfl
  · intro e hres heof
    simp only [wrapStreamingHandler, hres, heof]
    rw [summaries_append, summaries_append, summaries_debug_if, summaries_runStream]
    simp [summaries, runStream_sentCount, runStream_receivedCount, newLoggedStreamConn] <;> rfl
  · intro e hres heof
    simp only [wrapStreamingHandler, hres, heof]
    rw [summaries_append, summaries_append, summaries_debug_if, summaries_runStream]
    by_cases hp : (classifyGoError e).code.toNat < Code.internal.toNat <;>
      simp [hp, summaries, runStream_sentCount, runStream_receivedCount,
        newLoggedStreamConn] <;> rfl

/-- C5 witness: a stream of three successful sends and two successful
receives terminated by `io.EOF` yields one info-level completion summary
with counts 3 and 2 and no error attribute. -/
theorem wrapStreamingHandler_summary_witness :
    summaries (wrapStreamingHandler false
      ⟨[.send none, .send none, .send none, .receive none, .receive none],
        some .ioEOF⟩).1 =
      [{ level := .info, msg := "stream completed", err := none,
         messages := some (3, 2) }] :=
  (wrapStreamingHandler_summary false
    ⟨[.send none, .send none, .send none, .receive none, .receive none],
      some .ioEOF⟩).2.1 .ioEOF rfl rfl

/-- C4 counterexample: a unary handler failing with the unrecognized error
`errors.New("boom")` classifies to code unknown, which is ordinally below
the internal code, so the single summary record is emitted at warn level and
no error-level record is emitted — contradicting the claim that an
unrecognized error produces an error-level summary. -/
theorem unary_unknown_warn_counterexample :
    (wrapUnary false (fun _ : Unit => ((), some (GoError.simple "boom"))) ()).1 =
      [{ level := Level.warn, msg := "request failed",
         err := some (.fresh ⟨.unknown, some (.simple "boom")⟩), messages := none }] ∧
    ((wrapUnary false (fun _ : Unit => ((), some (GoError.simple "boom"))) ()).1.filter
      (fun r => r.level == Level.error)) = [] ∧
    Level.warn ≠ Level.error :=
  ⟨rfl, rfl, by decide⟩

/-- C4 (amended): a unary handler error whose classified code is ordinally
at least the internal code — in particular an internal error — yields
exactly one error-level summary record; an unrecognized error classifies to
code unknown and therefore yields exactly one warn-level summary record,
because warn level is used exactly when the classified code is ordinally
less severe than the internal code. -/
theorem wrapUnary_summary_levels :
    ∀ (Req Resp : Type) (d : Bool) (next : Req → Resp × Option GoError) (req : Req)
      (e : GoError),
      (next req).2 = some e →
      (summaries (wrapUnary d next req).1 =
        [{ level := if (classifyGoError e).code.toNat < Code.internal.toNat
              then Level.warn else Level.error,
           msg := "request failed", err := some (classifyGoError e), messages := none }]) ∧
      (Code.internal.toNat ≤ (classifyGoError e).code.toNat →
        summaries (wrapUnary d next req).1 =
          [{ level := Level.error, msg := "request failed",
             err := some (classifyGoError e), messages := none }]) ∧
      ((classifyGoError e).code.toNat < Code.internal.toNat →
        summaries (wrapUnary d next req).1 =
          [{ level := Level.warn, msg := "request failed",
             err := some (classifyGoError e), messages := none }]) ∧
      (asConnect e = none → isCanceledErr e = false → isDeadlineErr e = false →
        (classifyGoError e).code = Code.unknown) := by
  intro Req Resp d next req e hres
  have hbase : summaries (wrapUnary d next req).1 =
      [{ level := if (classifyGoError e).code.toNat < Code.internal.toNat
            then Level.warn else Level.error,
         msg := "request failed", err := some (classifyGoError e), messages := none }] := by
    simp only [wrapUnary, hres]
    rw [summaries_append, summaries_debug_if]
    by_cases hp : (classifyGoError e).code.toNat < Code.internal.toNat <;>
      simp [hp, summaries] <;> rfl
  refine ⟨hbase, ?_, ?_, ?_⟩
  · intro hge
    rw [hbase, if_neg (by omega)]
  · intro hlt
    rw [hbase, if_pos hlt]
  · intro h1 h2 h3
    simp only [classifyGoError, h1, h2, h3]
    rfl

/-- C4 witness: an internal `connect.Error` yields the error-level summary,
and a plain error classifies to code unknown. -/
theorem wrapUnary_summary_levels_witness :
    summaries (wrapUnary false
      (fun _ : Unit => ((), some (GoError.connectWrap .internal (some (.simple "kaput"))))) ()).1 =
      [{ level := Level.error, msg := "request failed",
         err := some (.fresh ⟨.internal, some (.simple "kaput")⟩), messages := none }] ∧
    (classifyGoError (.simple "boom")).code = Code.unknown :=
  ⟨(wrapUnary_summary_levels Unit Unit false
      (fun _ : Unit => ((), some (GoError.connectWrap .internal (some (.simple "kaput"))))) ()
      (GoError.connectWrap .internal (some (.simple "kaput"))) rfl).2.1 (by decide),
   (wrapUnary_summary_levels Unit Unit false
      (fun _ : Unit => ((), some (GoError.simple "boom"))) ()
      (GoError.simple "boom") rfl).2.2.2 rfl rfl rfl⟩

/-- C7: when the original underlying error of a classified error exposes no
structured log value, its structured form is exactly the code and message
fields; when it exposes a flat attribute group, the group's members are
spliced directly after code and message (strictly more than two fields
whenever the group is non-empty); when it exposes any other value, that
value is nested under a single `details` key, giving exactly three fields. -/
theorem logValue_detail_merging :
    ∀ e : LoggableError,
      (origLogValuer e = none →
        logValueAttrs e =
          [("code", SlogValue.str e.code.render), ("message", SlogValue.str e.message)]) ∧
      (∀ g, origLogValuer e = some (.group g) →
        logValueAttrs e =
          [("code", SlogValue.str e.code.render), ("message", SlogValue.str e.message)] ++
            g.map (fun a => (a.1, SlogValue.str a.2)) ∧
        (g ≠ [] → 2 < (logValueAttrs e).length)) ∧
      (∀ v, origLogValuer e = some v → v.isGroup = false →
        logValueAttrs e =
          [("code", SlogValue.str e.code.render), ("message", SlogValue.str e.message),
           ("details", v)] ∧
        (logValueAttrs e).length = 3) := by
  intro e
  refine ⟨?_, ?_, ?_⟩
  · intro hnone
    simp [logValueAttrs, hnone, LoggableError.code, LoggableError.message]
  · intro g hg
    constructor
    · simp [logValueAttrs, hg, LoggableError.code, LoggableError.message]
    · intro hne
      have hpos := List.length_pos.mpr hne
      simp [logValueAttrs, hg]
      omega
  · intro v hv hgrp
    cases v with
    | group g => simp [SlogValue.isGroup] at hgrp
    | str s =>
      constructor
      · simp [logValueAttrs, hv, LoggableError.code, LoggableError.message]
      · simp [logValueAttrs, hv]

/-- C7 witness: the repository's `detailedError` example — an unknown-coded
error whose cause exposes the group `{field, reason}` — produces the four
fields code, message, field, reason. -/
theorem logValue_detail_merging_witness :
    logValueAttrs (.fresh ⟨.unknown, some (.withLogValue "validation error"
        (.group [("field", "email"), ("reason", "invalid format")]))⟩) =
      [("code", SlogValue.str "unknown"), ("message", SlogValue.str "validation error"),
       ("field", SlogValue.str "email"), ("reason", SlogValue.str "invalid format")] ∧
    2 < (logValueAttrs (.fresh ⟨.unknown, some (.withLogValue "validation error"
        (.group [("field", "email"), ("reason", "invalid format")]))⟩)).length :=
  ⟨((logValue_detail_merging
      (.fresh ⟨.unknown, some (.withLogValue "validation error"
        (.group [("field", "email"), ("reason", "invalid format")]))⟩)).2.1
      [("field", "email"), ("reason", "invalid format")] rfl).1,
   ((logValue_detail_merging
      (.fresh ⟨.unknown, some (.withLogValue "validation error"
        (.group [("field", "email"), ("reason", "invalid format")]))⟩)).2.1
      [("field", "email"), ("reason", "invalid format")] rfl).2 (by decide)⟩

/-- C8: the interceptor is a pure observer — the unary wrapper returns
exactly the response and error the wrapped handler produced on the request
it was given, and the streaming wrapper returns exactly the handler's
terminating error. -/
theorem interceptor_transparency :
    (∀ (Req Resp : Type) (d : Bool) (next : Req → Resp × Option GoError) (req : Req),
      (wrapUnary d next req).2 = next req) ∧
    (∀ (d : Bool) (h : StreamHandler), (wrapStreamingHandler d h).2 = h.result) := by
  constructor
  · intro Req Resp d next req
    cases herr : (next req).2 with
    | some e =>
      simp only [wrapUnary, herr]
      rw [← herr]
    | none =>
      simp only [wrapUnary, herr]
      rw [← herr]
  · intro d h
    rfl

theorem findIdx_slash_append (service method : List Char) (hs : '/' ∉ service) :
    (service ++ '/' :: method).findIdx? (fun c => c == '/') = some service.length := by
  induction service with
  | nil => simp
  | cons c rest ih =>
    have hc : (c == '/') = false := by
      rw [beq_eq_false_iff_ne]
      intro hcc
      exact hs (hcc ▸ List.mem_cons_self c rest)
    have hrest : '/' ∉ rest := fun hm => hs (List.mem_cons_of_mem c hm)
    simp [List.findIdx?_cons, hc, ih hrest]

/-- C9: when the procedure identifier, after one leading separator is
stripped, contains no further separator, the parse faults (the modelled
index fault, `none`); when the identifier has the form `/service/method`,
the parse succeeds and splits at the first separator into the service and
method components. -/
theorem initRequestLoggerSplit_spec :
    (∀ procedure : List Char, '/' ∉ trimLeadingSlash procedure →
      initRequestLoggerSplit procedure = none) ∧
    (∀ service method : List Char, '/' ∉ service →
      initRequestLoggerSplit ('/' :: (service ++ '/' :: method)) = some (service, method)) := by
  constructor
  · intro p hp
    have hidx : (trimLeadingSlash p).findIdx? (fun c => c == '/') = none := by
      rw [List.findIdx?_eq_none_iff]
      intro x hx
      rw [beq_eq_false_iff_ne]
      intro hxe
      exact hp (hxe ▸ hx)
    simp only [initRequestLoggerSplit, hidx]
  · intro service method hs
    have htrim : trimLeadingSlash ('/' :: (service ++ '/' :: method)) =
        service ++ '/' :: method := rfl
    have hlen : (service ++ ['/']).length = service.length + 1 := by simp
    have hassoc : service ++ '/' :: method = (service ++ ['/']) ++ method := by simp
    simp only [initRequestLoggerSplit, htrim, findIdx_slash_append service method hs]
    rw [List.take_left' rfl]
    rw [hassoc, List.drop_left' hlen]

/-- C9 witness: a well-formed identifier splits into service and method, and
an identifier with no separator after the leading one faults. -/
theorem initRequestLoggerSplit_spec_witness :
    initRequestLoggerSplit ('/' :: ("pkg.Service".data ++ '/' :: "Method".data)) =
      some ("pkg.Service".data, "Method".data) ∧
    initRequestLoggerSplit "/nomethod".data = none :=
  ⟨initRequestLoggerSplit_spec.2 "pkg.Service".data "Method".data (by decide),
   initRequestLoggerSplit_spec.1 "/nomethod".data (by decide)⟩

end ConnectLog
